import Mathlib

/-!
Shallow embedding of `src/ripple/overlay/impl/OverlayImpl.cpp` (rippled's
peer-overlay manager) and proofs about its registry, handshake negotiation,
stop propagation, timer, and connect logic.

The manager's collaborators (PeerFinder slot provider, resource manager,
handshake parsing/verification, TLS session material) are external to this
translation unit; their results are passed in as oracle inputs, exactly at
the call sites where `OverlayImpl` consumes them.  Machine maps
(`std::map`, `hash_map`) are embedded as association lists with
`emplace`-style insertion (no overwrite, success flag) and key erasure.
-/

namespace Overlay

/-- One peer handle, as `OverlayImpl` sees it: a numeric id (assigned from
`next_id_`), the public key learned in the handshake (`getNodePublic`),
and the PeerFinder slot it owns. -/
structure Peer where
  id : Nat
  publicKey : Nat
  slot : Nat
  deriving DecidableEq, Repr

/-- Association-list embedding of a `std::map` with `Nat` keys. -/
abbrev AList (α : Type) := List (Nat × α)

/-- Lookup by key: first entry whose key matches. -/
def lookupKey {α : Type} (m : AList α) (k : Nat) : Option α :=
  (m.find? (fun e => e.1 == k)).map (fun e => e.2)

/-- `std::map::emplace`: insert only when the key is absent; the `Bool` is
`result.second` (whether an insertion took place). -/
def emplace {α : Type} (m : AList α) (k : Nat) (v : α) : AList α × Bool :=
  match lookupKey m k with
  | some _ => (m, false)
  | none => ((k, v) :: m, true)

/-- `std::map::erase(key)`: remove the entry with the given key. -/
def eraseKey {α : Type} (m : AList α) (k : Nat) : AList α :=
  m.filter (fun e => e.1 != k)

/-- The mutable state of `OverlayImpl` guarded by `mutex_`: the Work token
(`work_`, a `boost::optional<io_service::work>` modelled as its presence
flag), the three registry maps, and the child list `list_` (child identity
mapped to a weak reference that may or may not still resolve). -/
structure OverlayState where
  work : Bool
  m_peers : AList Peer
  m_shortIdMap : AList Peer
  m_publicKeyMap : AList Peer
  list_ : List (Nat × Option Nat)
  deriving Repr

/-- The state right after the `OverlayImpl` constructor: `work_` is
engaged (`boost::in_place`), all maps and the child list empty. -/
def initialOverlay : OverlayState :=
  { work := true
    m_peers := []
    m_shortIdMap := []
    m_publicKeyMap := []
    list_ := [] }

/-- `OverlayImpl::activate`: emplace the peer into `m_shortIdMap` keyed by
`peer->id()` and into `m_publicKeyMap` keyed by `peer->getNodePublic()`.
The returned `Bool` is the conjunction of the two `assert(result.second)`
conditions (both emplaces actually inserted). -/
def activate (s : OverlayState) (peer : Peer) : OverlayState × Bool :=
  let r1 := emplace s.m_shortIdMap peer.id peer
  let r2 := emplace s.m_publicKeyMap peer.publicKey peer
  ({ s with m_shortIdMap := r1.1, m_publicKeyMap := r2.1 }, r1.2 && r2.2)

/-- `OverlayImpl::onPeerDeactivate`: erase the id from `m_shortIdMap` and
the public key from `m_publicKeyMap`, unconditionally. -/
def onPeerDeactivate (s : OverlayState) (id key : Nat) : OverlayState :=
  { s with
    m_shortIdMap := eraseKey s.m_shortIdMap id
    m_publicKeyMap := eraseKey s.m_publicKeyMap key }

/-- `OverlayImpl::size`: the number of entries of `m_publicKeyMap`. -/
def size (s : OverlayState) : Nat :=
  s.m_publicKeyMap.length

/-- `OverlayImpl::add` (caller holds the mutex): emplace the peer into
`m_peers` keyed by `peer->slot()` and record it in the child list. -/
def add (s : OverlayState) (peer : Peer) : OverlayState :=
  { s with
    m_peers := (emplace s.m_peers peer.slot peer).1
    list_ := (peer.id, some peer.id) :: s.list_ }

/-- `OverlayImpl::remove(slot)`: find the slot in `m_peers`, assert the
iterator is valid, erase it.  The `Bool` is the assertion condition
(`iter != m_peers.end()`). -/
def removeSlot (s : OverlayState) (slot : Nat) : OverlayState × Bool :=
  ({ s with m_peers := eraseKey s.m_peers slot },
    (lookupKey s.m_peers slot).isSome)

/-- `OverlayImpl::stop`: when `work_` is engaged, disengage it and signal
`stop` to every child in `list_` whose weak reference still locks; when it
is already disengaged, do nothing.  Returns the new state together with
the list of children actually signalled. -/
def stop (s : OverlayState) : OverlayState × List Nat :=
  if s.work then
    ({ s with work := false }, s.list_.filterMap (fun c => c.2))
  else (s, [])

/-- The registry's representation invariant relating the two activation
maps: both are the image of one list of activated peers (`m_shortIdMap`
keyed by id, `m_publicKeyMap` keyed by public key), with all ids and all
public keys pairwise distinct.  This is what `activate`'s freshness
asserts maintain. -/
def RegInv (s : OverlayState) : Prop :=
  ∃ ps : List Peer,
    s.m_shortIdMap = ps.map (fun p => (p.id, p)) ∧
    s.m_publicKeyMap = ps.map (fun p => (p.publicKey, p)) ∧
    (ps.map Peer.id).Nodup ∧ (ps.map Peer.publicKey).Nodup

/-! ## Handshake / upgrade negotiation (`onHandoff`, `onLegacyPeerHello`) -/

/-- ASCII lower-casing of one character, as `beast::ci_char_traits`
compares characters. -/
def lowerChar (c : Char) : Char :=
  if 65 ≤ c.toNat ∧ c.toNat ≤ 90 then Char.ofNat (c.toNat + 32) else c

/-- `beast::ci_equal`: case-insensitive string equality. -/
def ciEqual (a b : String) : Bool :=
  a.data.map lowerChar == b.data.map lowerChar

/-- The `std::find_if` over the comma-split `Connect-As` values in
`onHandoff`: does any value compare case-insensitively equal to
`"peer"`? -/
def containsPeerToken (types : List String) : Bool :=
  types.any (fun s => ciEqual s "peer")

/-- The fields of the parsed `beast::http::message` that `onHandoff` and
`isPeerUpgrade` consume.  Header parsing (`parse_ProtocolVersions`,
`rfc2616::split_commas`) is external to this translation unit, so the
message carries the parsed `Upgrade` version list and the comma-split
`Connect-As` values. -/
structure HttpMessage where
  upgrade : Bool
  upgradeVersions : List Nat
  isRequest : Bool
  status : Nat
  connectAs : List String
  keepAlive : Bool
  version : Nat × Nat

/-- `OverlayImpl::isPeerUpgrade`: an upgrade must be declared, its parsed
version list non-empty, and a response-shaped message must carry status
101. -/
def isPeerUpgrade (request : HttpMessage) : Bool :=
  if !request.upgrade then false
  else if request.upgradeVersions.length == 0 then false
  else if !request.isRequest && request.status != 101 then false
  else true

/-- An endpoint in a PeerFinder redirect list; `onHandoff` renders its
`.address` member to a string. -/
structure PFEndpoint where
  address : Nat
  deriving DecidableEq, Repr

/-- Rendering of an address to a string (`to_string()`). -/
def addrToString (a : Nat) : String :=
  toString a

/-- `PeerFinder::Result`, the outcome of `PeerFinder::activate`. -/
inductive PFResult where
  | success
  | full
  | duplicate
  deriving DecidableEq, Repr

/-- Oracle answers of the collaborators `onHandoff` calls, in call order:
the transport's local endpoint (`none` models a failing
`local_endpoint(ec)`), the resource consumer's `disconnect()` verdict, the
PeerFinder inbound-slot grant, the remote address, the per-slot redirect
candidate list, the `parseHello` / `makeSharedValue` / `verifyHello`
results (`none` models the failure flag), the cluster lookup, and the
`PeerFinder::activate` result. -/
structure HandoffEnv where
  localEndpoint : Option Nat
  consumerDisconnect : Bool
  inboundSlot : Option Nat
  remoteAddress : Nat
  redirects : Nat → List PFEndpoint
  parsedHello : Option Nat
  sharedValue : Option Nat
  verifiedKey : Option Nat
  clusterNode : Bool
  activateResult : PFResult

/-- The response `makeRedirectResponse` builds: status and reason line,
`Remote-Address` header, HTTP version copied from the request, and the
`peer-ips` JSON array. -/
structure RedirectResponse where
  status : Nat
  reason : String
  remoteAddress : String
  version : Nat × Nat
  peerIps : List String
  deriving DecidableEq, Repr

/-- `OverlayImpl::makeRedirectResponse`: query the PeerFinder redirect
list for the slot, render each endpoint address, and build the 503
response echoing the request's HTTP version and the caller's address. -/
def makeRedirectResponse (env : HandoffEnv) (slot : Nat) (request : HttpMessage) :
    RedirectResponse :=
  { status := 503
    reason := "Service Unavailable"
    remoteAddress := addrToString env.remoteAddress
    version := request.version
    peerIps := (env.redirects slot).map (fun e => addrToString e.address) }

/-- Modelled from the spec: the `Handoff` outcome type lives in the
server module, outside this translation unit.  Per the spec's interface
contract (`negotiate → Outcome { notHandled | handled(response?) }`), a
default-constructed `Handoff` is the "not handled" outcome: `moved`
false, no response, `keep_alive` false. -/
structure Handoff where
  moved : Bool
  response : Option RedirectResponse
  keepAlive : Bool
  deriving DecidableEq, Repr

/-- Modelled from the spec: the default-constructed (not-handled)
`Handoff`. -/
def defaultHandoff : Handoff :=
  { moved := false, response := none, keepAlive := false }

/-- The externally visible calls `onHandoff` / `onLegacyPeerHello` make,
in order: these traces witness which collaborators were touched and
whether the registry's add-and-run admission ran. -/
inductive CallEv where
  | queryLocalEndpoint
  | newInboundToken
  | newInboundSlot
  | checkConnectAs
  | parseHelloCall
  | makeSharedValueCall
  | verifyHelloCall
  | clusterLookup
  | slotActivate
  | redirectQuery
  | addAndRun
  deriving DecidableEq, Repr

/-- `OverlayImpl::onHandoff`, the inbound upgrade negotiation: the
decision procedure of the source, line by line, returning the `Handoff`
together with the trace of collaborator calls made. -/
def onHandoff (env : HandoffEnv) (request : HttpMessage) : Handoff × List CallEv :=
  if !isPeerUpgrade request then
    (defaultHandoff, [])
  else
    match env.localEndpoint with
    | none => ({ moved := true, response := none, keepAlive := false },
        [CallEv.queryLocalEndpoint])
    | some _ =>
      let t1 := [CallEv.queryLocalEndpoint, CallEv.newInboundToken]
      if env.consumerDisconnect then
        ({ moved := true, response := none, keepAlive := false }, t1)
      else
        let t2 := t1 ++ [CallEv.newInboundSlot]
        match env.inboundSlot with
        | none => ({ moved := false, response := none, keepAlive := false }, t2)
        | some slot =>
          let t3 := t2 ++ [CallEv.checkConnectAs]
          if !containsPeerToken request.connectAs then
            ({ moved := false
               response := some (makeRedirectResponse env slot request)
               keepAlive := request.keepAlive }, t3 ++ [CallEv.redirectQuery])
          else
            let t4 := t3 ++ [CallEv.parseHelloCall]
            match env.parsedHello with
            | none => ({ moved := true, response := none, keepAlive := false }, t4)
            | some _ =>
              let t5 := t4 ++ [CallEv.makeSharedValueCall]
              match env.sharedValue with
              | none => ({ moved := true, response := none, keepAlive := false }, t5)
              | some _ =>
                let t6 := t5 ++ [CallEv.verifyHelloCall]
                match env.verifiedKey with
                | none => ({ moved := true, response := none, keepAlive := false }, t6)
                | some _ =>
                  let t7 := t6 ++ [CallEv.clusterLookup, CallEv.slotActivate]
                  if env.activateResult != PFResult.success then
                    ({ moved := false
                       response := some (makeRedirectResponse env slot request)
                       keepAlive := request.keepAlive }, t7 ++ [CallEv.redirectQuery])
                  else
                    ({ moved := true, response := none, keepAlive := false },
                      t7 ++ [CallEv.addAndRun])

/-- Oracle answers consumed by `onLegacyPeerHello`: the transport's local
endpoint and the PeerFinder inbound-slot grant. -/
structure LegacyEnv where
  localEndpoint : Option Nat
  inboundSlot : Option Nat
  deriving DecidableEq, Repr

/-- `OverlayImpl::onLegacyPeerHello`: resolve the local endpoint (failure
returns), request an inbound slot (null slot returns), then construct the
peer and run it under the lock.  The `Bool` reports whether a peer was
admitted and run. -/
def onLegacyPeerHello (env : LegacyEnv) : Bool × List CallEv :=
  match env.localEndpoint with
  | none => (false, [CallEv.queryLocalEndpoint])
  | some _ =>
    match env.inboundSlot with
    | none => (false, [CallEv.queryLocalEndpoint, CallEv.newInboundSlot])
    | some _ =>
      (true, [CallEv.queryLocalEndpoint, CallEv.newInboundSlot, CallEv.addAndRun])

/-- `OverlayImpl::connect`: `assert(work_)`, ask the PeerFinder for an
outbound slot; a null slot aborts, otherwise construct the peer on that
slot and admit it via the locked add-and-run sequence.  `slotResult` is
the oracle answer of `new_outbound_slot`, `newPeer` the handle the
`PeerImp` constructor would produce for a given slot.  The `Bool` is the
`assert(work_)` condition. -/
def connect (s : OverlayState) (slotResult : Option Nat) (newPeer : Nat → Peer) :
    OverlayState × Bool :=
  match slotResult with
  | none => (s, s.work)
  | some slot => (add s (newPeer slot), s.work)

/-! ## Periodic maintenance timer (`Timer::on_timer`) -/

/-- The inputs `Timer::on_timer` branches on: the asio error code of the
elapsed wait (`none` means no error; `some 0` stands for
`operation_aborted`, cancellation) and the manager's `isStopping()`
state. -/
structure TickEnv where
  ec : Option Nat
  stopping : Bool
  deriving DecidableEq, Repr

/-- The actions a timer tick can perform, in source order. -/
inductive TickAction where
  | oncePerSecond
  | sendEndpoints
  | autoConnect
  | reschedule
  deriving DecidableEq, Repr

/-- `OverlayImpl::Timer::on_timer`: on an error or while stopping, log
(when the error is not a cancellation) and return without doing anything;
otherwise run PeerFinder bookkeeping, endpoint broadcast, auto-connect,
and re-arm the timer for one second later, in that order. -/
def on_timer (env : TickEnv) : List TickAction :=
  if env.ec.isSome || env.stopping then []
  else
    [TickAction.oncePerSecond, TickAction.sendEndpoints,
      TickAction.autoConnect, TickAction.reschedule]

/-! ## Concrete sample inputs used to exercise the theorems -/

/-- A collaborator environment in which every oracle succeeds: local
endpoint 7, no quota disconnect, inbound slot 3, remote address 9, two
redirect candidates, and a verified handshake accepted by the
PeerFinder. -/
def sampleEnv : HandoffEnv :=
  { localEndpoint := some 7
    consumerDisconnect := false
    inboundSlot := some 3
    remoteAddress := 9
    redirects := fun _ => [⟨4⟩, ⟨5⟩]
    parsedHello := some 0
    sharedValue := some 0
    verifiedKey := some 0
    clusterNode := false
    activateResult := PFResult.success }

/-- The sample environment with a denied (null) inbound slot. -/
def nullSlotEnv : HandoffEnv :=
  { sampleEnv with inboundSlot := none }

/-- An overlay tracking three children, the second of which has already
expired its weak reference. -/
def stoppableOverlay : OverlayState :=
  { initialOverlay with list_ := [(1, some 11), (2, none), (3, some 13)] }

/-- A plain HTTP request that declares no protocol upgrade. -/
def noUpgradeRequest : HttpMessage :=
  { upgrade := false
    upgradeVersions := []
    isRequest := true
    status := 200
    connectAs := ["peer"]
    keepAlive := true
    version := (1, 1) }

/-- An upgrade request whose `Connect-As` values name `rpc`, not
`peer`. -/
def rpcRequest : HttpMessage :=
  { upgrade := true
    upgradeVersions := [1]
    isRequest := true
    status := 200
    connectAs := ["rpc"]
    keepAlive := true
    version := (1, 1) }

/-- A well-formed peer upgrade request (`Connect-As: Peer`, compared
case-insensitively). -/
def peerRequest : HttpMessage :=
  { upgrade := true
    upgradeVersions := [1]
    isRequest := true
    status := 200
    connectAs := ["Peer"]
    keepAlive := false
    version := (1, 1) }

/-! ## Helper lemmas about the association-list map operations -/

lemma lookupKey_cons {α : Type} (kv : Nat × α) (m : AList α) (k : Nat) :
    lookupKey (kv :: m) k = if kv.1 = k then some kv.2 else lookupKey m k := by
  by_cases h : kv.1 = k <;> simp [lookupKey, List.find?_cons, h]

lemma lookupKey_eq_none {α : Type} {m : AList α} {k : Nat} :
    lookupKey m k = none ↔ ∀ e ∈ m, e.1 ≠ k := by
  simp [lookupKey, List.find?_eq_none]

lemma lookupKey_map_none {f : Peer → Nat} {ps : List Peer} {k : Nat}
    (h : lookupKey (ps.map (fun q => (f q, q))) k = none) :
    ∀ p ∈ ps, f p ≠ k := by
  intro p hp
  exact lookupKey_eq_none.mp h (f p, p) (List.mem_map_of_mem _ hp)

lemma lookupKey_map_some {f : Peer → Nat} {ps : List Peer} {k : Nat} {p : Peer}
    (h : lookupKey (ps.map (fun q => (f q, q))) k = some p) :
    p ∈ ps ∧ f p = k := by
  induction ps with
  | nil => simp [lookupKey] at h
  | cons q t ih =>
    rw [List.map_cons, lookupKey_cons] at h
    by_cases hq : f q = k
    · simp only [hq, if_pos rfl] at h
      cases h
      exact ⟨List.mem_cons_self _ _, hq⟩
    · simp only [hq, if_neg hq] at h
      obtain ⟨hm, hf⟩ := ih h
      exact ⟨List.mem_cons_of_mem _ hm, hf⟩

lemma emplace_of_absent {α : Type} {m : AList α} {k : Nat} (v : α)
    (h : lookupKey m k = none) :
    emplace m k v = ((k, v) :: m, true) := by
  simp [emplace, h]

lemma eraseKey_map (f : Peer → Nat) (ps : List Peer) (k : Nat) :
    eraseKey (ps.map (fun q => (f q, q))) k
      = (ps.filter (fun q => f q != k)).map (fun q => (f q, q)) := by
  induction ps with
  | nil => rfl
  | cons q t ih =>
    by_cases h : f q = k <;>
      simp [eraseKey, List.filter_cons, h, bne] at ih ⊢ <;>
      exact ih

lemma filter_keeps_all (f : Peer → Nat) (t : List Peer) (k : Nat)
    (h : ∀ q ∈ t, f q ≠ k) :
    t.filter (fun q => f q != k) = t := by
  apply List.filter_eq_self.mpr
  intro q hq
  simpa [bne] using h q hq

lemma filter_erase_eq (ps : List Peer) (p : Peer) (hp : p ∈ ps)
    (hid : (ps.map Peer.id).Nodup) (hkey : (ps.map Peer.publicKey).Nodup) :
    ps.filter (fun q => q.id != p.id) = ps.filter (fun q => q.publicKey != p.publicKey) := by
  induction ps with
  | nil => cases hp
  | cons q t ih =>
    rw [List.map_cons, List.nodup_cons] at hid hkey
    rcases List.mem_cons.mp hp with hpq | hpt
    · subst hpq
      rw [List.filter_cons_of_neg (by simp), List.filter_cons_of_neg (by simp)]
      rw [filter_keeps_all Peer.id t p.id
          (fun q hq hc => hid.1 (hc ▸ List.mem_map_of_mem Peer.id hq)),
        filter_keeps_all Peer.publicKey t p.publicKey
          (fun q hq hc => hkey.1 (hc ▸ List.mem_map_of_mem Peer.publicKey hq))]
    · have hqid : q.id ≠ p.id := fun hc =>
        hid.1 (hc ▸ List.mem_map_of_mem Peer.id hpt)
      have hqkey : q.publicKey ≠ p.publicKey := fun hc =>
        hkey.1 (hc ▸ List.mem_map_of_mem Peer.publicKey hpt)
      rw [List.filter_cons_of_pos (by simpa [bne] using hqid),
        List.filter_cons_of_pos (by simpa [bne] using hqkey),
        ih hpt hid.2 hkey.2]

lemma filter_erase_length (f : Peer → Nat) (ps : List Peer) (p : Peer) (hp : p ∈ ps)
    (hnod : (ps.map f).Nodup) :
    (ps.filter (fun q => f q != f p)).length + 1 = ps.length := by
  induction ps with
  | nil => cases hp
  | cons q t ih =>
    rw [List.map_cons, List.nodup_cons] at hnod
    rcases List.mem_cons.mp hp with hpq | hpt
    · subst hpq
      rw [List.filter_cons_of_neg (by simp),
        filter_keeps_all f t (f p)
          (fun q hq hc => hnod.1 (hc ▸ List.mem_map_of_mem f hq))]
      simp
    · have hq : f q ≠ f p := fun hc =>
        hnod.1 (hc ▸ List.mem_map_of_mem f hpt)
      rw [List.filter_cons_of_pos (by simpa [bne] using hq)]
      simp only [List.length_cons]
      rw [← ih hpt hnod.2]

lemma nodup_map_filter (f : Peer → Nat) (pred : Peer → Bool) (ps : List Peer)
    (hnod : (ps.map f).Nodup) :
    ((ps.filter pred).map f).Nodup :=
  List.Nodup.sublist (List.Sublist.map f (List.filter_sublist ps)) hnod

lemma regInv_initial : RegInv initialOverlay :=
  ⟨[], rfl, rfl, List.nodup_nil, List.nodup_nil⟩

lemma regInv_same_values {s : OverlayState} (hInv : RegInv s) :
    s.m_shortIdMap.map (fun e => e.2) = s.m_publicKeyMap.map (fun e => e.2) := by
  obtain ⟨ps, hshort, hpub, _, _⟩ := hInv
  rw [hshort, hpub]
  simp

lemma regInv_activate {s : OverlayState} {p : Peer} (hInv : RegInv s)
    (hid : lookupKey s.m_shortIdMap p.id = none)
    (hkey : lookupKey s.m_publicKeyMap p.publicKey = none) :
    RegInv (activate s p).1 ∧ size (activate s p).1 = size s + 1 ∧
      (activate s p).2 = true := by
  obtain ⟨ps, hshort, hpub, hnodid, hnodkey⟩ := hInv
  have hid2 : ∀ q ∈ ps, q.id ≠ p.id := by
    rw [hshort] at hid
    exact lookupKey_map_none hid
  have hkey2 : ∀ q ∈ ps, q.publicKey ≠ p.publicKey := by
    rw [hpub] at hkey
    exact lookupKey_map_none hkey
  have e1 : emplace s.m_shortIdMap p.id p = ((p.id, p) :: s.m_shortIdMap, true) :=
    emplace_of_absent p hid
  have e2 : emplace s.m_publicKeyMap p.publicKey p
      = ((p.publicKey, p) :: s.m_publicKeyMap, true) :=
    emplace_of_absent p hkey
  have m1 : (activate s p).1.m_shortIdMap = (p.id, p) :: s.m_shortIdMap := by
    simp [activate, e1]
  have m2 : (activate s p).1.m_publicKeyMap = (p.publicKey, p) :: s.m_publicKeyMap := by
    simp [activate, e2]
  refine ⟨⟨p :: ps, ?_, ?_, ?_, ?_⟩, ?_, ?_⟩
  · rw [m1, hshort, List.map_cons]
  · rw [m2, hpub, List.map_cons]
  · rw [List.map_cons]
    refine List.nodup_cons.mpr ⟨fun hc => ?_, hnodid⟩
    obtain ⟨q, hq, he⟩ := List.mem_map.mp hc
    exact hid2 q hq he
  · rw [List.map_cons]
    refine List.nodup_cons.mpr ⟨fun hc => ?_, hnodkey⟩
    obtain ⟨q, hq, he⟩ := List.mem_map.mp hc
    exact hkey2 q hq he
  · simp [size, m2]
  · simp [activate, e1, e2]

lemma regInv_deactivate {s : OverlayState} {id key : Nat} {p : Peer} (hInv : RegInv s)
    (hfound : lookupKey s.m_shortIdMap id = some p) (hkeyp : p.publicKey = key) :
    RegInv (onPeerDeactivate s id key) ∧
      size (onPeerDeactivate s id key) + 1 = size s := by
  obtain ⟨ps, hshort, hpub, hnodid, hnodkey⟩ := hInv
  rw [hshort] at hfound
  obtain ⟨hmem, hpid⟩ := lookupKey_map_some hfound
  subst hpid
  subst hkeyp
  constructor
  · refine ⟨ps.filter (fun q => q.id != p.id), ?_, ?_, ?_, ?_⟩
    · simp only [onPeerDeactivate]
      rw [hshort, eraseKey_map Peer.id]
    · simp only [onPeerDeactivate]
      rw [hpub, eraseKey_map Peer.publicKey,
        ← filter_erase_eq ps p hmem hnodid hnodkey]
    · exact nodup_map_filter Peer.id _ ps hnodid
    · exact nodup_map_filter Peer.publicKey _ ps hnodkey
  · simp only [onPeerDeactivate, size]
    rw [hpub, eraseKey_map Peer.publicKey, List.length_map, List.length_map,
      ← filter_erase_eq ps p hmem hnodid hnodkey]
    exact filter_erase_length Peer.id ps p hmem hnodid

/-! ## Claim theorems -/

/-- C1: `byShortId` and `byPublicKey` always hold the same set of peers —
both registry maps are in lockstep (every `activate` inserts into both,
every `onPeerDeactivate` erases from both), `size()` is exactly the size
of `m_publicKeyMap`, `size` is `0` in the initial state, a fresh
`activate` grows it by exactly one, and deactivating an activated peer
shrinks it by exactly one. -/
theorem activate_deactivate_keep_maps_in_lockstep :
    size initialOverlay = 0 ∧
    RegInv initialOverlay ∧
    (∀ s : OverlayState, size s = s.m_publicKeyMap.length) ∧
    (∀ s : OverlayState, RegInv s →
      s.m_shortIdMap.map (fun e => e.2) = s.m_publicKeyMap.map (fun e => e.2)) ∧
    (∀ (s : OverlayState) (p : Peer), RegInv s →
      lookupKey s.m_shortIdMap p.id = none →
      lookupKey s.m_publicKeyMap p.publicKey = none →
      RegInv (activate s p).1 ∧ size (activate s p).1 = size s + 1) ∧
    (∀ (s : OverlayState) (id key : Nat) (p : Peer), RegInv s →
      lookupKey s.m_shortIdMap id = some p → p.publicKey = key →
      RegInv (onPeerDeactivate s id key) ∧
        size (onPeerDeactivate s id key) + 1 = size s) := by
  refine ⟨rfl, regInv_initial, fun s => rfl, fun s h => regInv_same_values h,
    fun s p h h1 h2 => ?_, fun s id key p h h1 h2 => regInv_deactivate h h1 h2⟩
  obtain ⟨ha, hb, _⟩ := regInv_activate h h1 h2
  exact ⟨ha, hb⟩

/-- Witness for C1: concretely activating peer (id 1, key 10, slot 5) in
the freshly constructed overlay grows `size` from 0 to 1, and
deactivating it shrinks `size` back by one. -/
theorem activate_deactivate_keep_maps_in_lockstep_witness :
    size (activate initialOverlay ⟨1, 10, 5⟩).1 = size initialOverlay + 1 ∧
    size (onPeerDeactivate (activate initialOverlay ⟨1, 10, 5⟩).1 1 10) + 1
      = size (activate initialOverlay ⟨1, 10, 5⟩).1 := by
  have h := activate_deactivate_keep_maps_in_lockstep
  have h1 := h.2.2.2.2.1 initialOverlay ⟨1, 10, 5⟩ h.2.1 rfl rfl
  have h2 := h.2.2.2.2.2 (activate initialOverlay ⟨1, 10, 5⟩).1 1 10 ⟨1, 10, 5⟩
    h1.1 rfl rfl
  exact ⟨h1.2, h2.2⟩

/-- C6: `activate`'s two `assert(result.second)` checks pass whenever the
peer's id and public key are fresh, `remove(slot)`'s
`assert(iter != m_peers.end())` passes whenever the slot is present in
`bySlot`, and under the registry invariant `m_publicKeyMap` never holds
two entries for the same public key. -/
theorem activate_remove_assertions_unreachable :
    (∀ (s : OverlayState) (p : Peer), RegInv s →
      lookupKey s.m_shortIdMap p.id = none →
      lookupKey s.m_publicKeyMap p.publicKey = none →
      (activate s p).2 = true) ∧
    (∀ (s : OverlayState) (slot : Nat),
      (lookupKey s.m_peers slot).isSome → (removeSlot s slot).2 = true) ∧
    (∀ s : OverlayState, RegInv s → (s.m_publicKeyMap.map (fun e => e.1)).Nodup) := by
  refine ⟨fun s p h h1 h2 => (regInv_activate h h1 h2).2.2,
    fun s slot h => h, fun s h => ?_⟩
  obtain ⟨ps, _, hpub, _, hnodkey⟩ := h
  rw [hpub]
  simpa using hnodkey

/-- Witness for C6: in the fresh overlay the `activate` assertions pass
for peer (id 1, key 10, slot 5), and after admitting that peer the
`remove(slot)` assertion passes for slot 5. -/
theorem activate_remove_assertions_unreachable_witness :
    (activate initialOverlay ⟨1, 10, 5⟩).2 = true ∧
    (removeSlot (add initialOverlay ⟨1, 10, 5⟩) 5).2 = true :=
  ⟨activate_remove_assertions_unreachable.1 initialOverlay ⟨1, 10, 5⟩
      ⟨[], rfl, rfl, List.nodup_nil, List.nodup_nil⟩ rfl rfl,
    activate_remove_assertions_unreachable.2.1 (add initialOverlay ⟨1, 10, 5⟩) 5 rfl⟩

/-- C2: a request that declares no upgrade, or whose parsed `Upgrade`
version list is empty, or that is response-shaped with a status other
than 101, makes `onHandoff` return the default (not-handled) `Handoff`
with an empty collaborator trace: no slot reserved, no accounting token
consumed, the transport untouched. -/
theorem no_upgrade_is_not_handled (env : HandoffEnv) (request : HttpMessage)
    (h : request.upgrade = false ∨ request.upgradeVersions = [] ∨
      (request.isRequest = false ∧ request.status ≠ 101)) :
    onHandoff env request = (defaultHandoff, []) := by
  have hup : isPeerUpgrade request = false := by
    rcases h with h | h | ⟨h1, h2⟩ <;> simp [isPeerUpgrade, *]
  simp [onHandoff, hup]

/-- Witness for C2: a request without an `Upgrade` header, in an
environment where every collaborator would succeed, is left untouched. -/
theorem no_upgrade_is_not_handled_witness :
    onHandoff sampleEnv noUpgradeRequest = (defaultHandoff, []) :=
  no_upgrade_is_not_handled sampleEnv noUpgradeRequest (Or.inl rfl)

/-- C3: a peer-upgrade request whose `Connect-As` values (compared
case-insensitively) do not include `peer` receives the redirect: status
503 `Service Unavailable`, `Remote-Address` header rendering the caller's
address, the request's HTTP version, a `peer-ips` body rendering exactly
the PeerFinder's redirect candidates for the reserved slot, and
`keep_alive` copied from the request. -/
theorem non_peer_connect_as_redirects (env : HandoffEnv) (request : HttpMessage)
    (slot lcl : Nat)
    (hup : isPeerUpgrade request = true)
    (hlocal : env.localEndpoint = some lcl)
    (hcons : env.consumerDisconnect = false)
    (hslot : env.inboundSlot = some slot)
    (hpeer : containsPeerToken request.connectAs = false) :
    (onHandoff env request).1 =
      { moved := false
        response := some
          { status := 503
            reason := "Service Unavailable"
            remoteAddress := addrToString env.remoteAddress
            version := request.version
            peerIps := (env.redirects slot).map (fun e => addrToString e.address) }
        keepAlive := request.keepAlive } := by
  simp [onHandoff, hup, hlocal, hcons, hslot, hpeer, makeRedirectResponse]

/-- Witness for C3: the `Connect-As: rpc` request in the sample
environment gets the 503 redirect carrying remote address `9` and the
slot's two candidates, with the request's keep-alive preference. -/
theorem non_peer_connect_as_redirects_witness :
    (onHandoff sampleEnv rpcRequest).1 =
      { moved := false
        response := some
          { status := 503
            reason := "Service Unavailable"
            remoteAddress := "9"
            version := (1, 1)
            peerIps := ["4", "5"] }
        keepAlive := true } :=
  non_peer_connect_as_redirects sampleEnv rpcRequest 3 7 rfl rfl rfl rfl (by decide)

/-- C4: when the PeerFinder denies the inbound slot (self-connection or
exhaustion), both inbound paths abort silently: `onHandoff` produces no
response and never reaches the add-and-run admission, and
`onLegacyPeerHello` admits no peer. -/
theorem null_slot_aborts_silently (env : HandoffEnv) (request : HttpMessage) (lcl : Nat)
    (hlocal : env.localEndpoint = some lcl)
    (hslot : env.inboundSlot = none) :
    (onHandoff env request).1.response = none ∧
    CallEv.addAndRun ∉ (onHandoff env request).2 ∧
    ∀ lenv : LegacyEnv, lenv.inboundSlot = none →
      (onLegacyPeerHello lenv).1 = false ∧
      CallEv.addAndRun ∉ (onLegacyPeerHello lenv).2 := by
  have legacy : ∀ lenv : LegacyEnv, lenv.inboundSlot = none →
      (onLegacyPeerHello lenv).1 = false ∧
      CallEv.addAndRun ∉ (onLegacyPeerHello lenv).2 := by
    intro lenv hnull
    cases hl : lenv.localEndpoint <;> simp [onLegacyPeerHello, hl, hnull]
  by_cases hup : isPeerUpgrade request = true
  · by_cases hcons : env.consumerDisconnect = true <;>
      refine ⟨?_, ?_, legacy⟩ <;> simp [onHandoff, hup, hlocal, hslot, hcons]
  · have hup2 : isPeerUpgrade request = false := by simpa using hup
    refine ⟨?_, ?_, legacy⟩ <;> simp [onHandoff, hup2, defaultHandoff]

/-- Witness for C4: in the sample environment with a denied slot, the
well-formed peer request yields no response and no admission, and the
legacy path with a denied slot admits nothing. -/
theorem null_slot_aborts_silently_witness :
    (onHandoff nullSlotEnv peerRequest).1.response = none ∧
    CallEv.addAndRun ∉ (onHandoff nullSlotEnv peerRequest).2 ∧
    ∀ lenv : LegacyEnv, lenv.inboundSlot = none →
      (onLegacyPeerHello lenv).1 = false ∧
      CallEv.addAndRun ∉ (onLegacyPeerHello lenv).2 :=
  null_slot_aborts_silently nullSlotEnv peerRequest 7 rfl rfl

/-- C5: the first `stop` disengages the Work token and signals exactly
the children whose weak references resolve at that moment; any later
`stop` finds the token absent, signals nobody, and changes nothing. -/
theorem stop_is_idempotent (s : OverlayState) :
    (stop s).1.work = false ∧
    (s.work = true →
      (stop s).2 = s.list_.filterMap (fun c => c.2) ∧
      (stop s).1 = { s with work := false }) ∧
    stop (stop s).1 = ((stop s).1, []) := by
  by_cases h : s.work = true
  · simp [stop, h]
  · have h2 : s.work = false := by simpa using h
    simp [stop, h2]

/-- Witness for C5: stopping an overlay with three children, one of whose
weak references has expired, signals exactly the two live children; a
second `stop` is a no-op that signals nobody. -/
theorem stop_is_idempotent_witness :
    (stop stoppableOverlay).2 = [11, 13] ∧
    stop (stop stoppableOverlay).1 = ((stop stoppableOverlay).1, []) := by
  have h := stop_is_idempotent stoppableOverlay
  exact ⟨((h.2.1 rfl).1).trans rfl, h.2.2⟩

/-- C7: a timer tick with no error and the manager not stopping performs
PeerFinder bookkeeping, endpoint broadcast, auto-connect and re-arms the
timer, in that order; a tick with an error (cancellation included) or
while stopping performs none of these and does not re-arm. -/
theorem timer_tick_runs_maintenance_in_order (env : TickEnv) :
    (env.ec = none → env.stopping = false →
      on_timer env = [TickAction.oncePerSecond, TickAction.sendEndpoints,
        TickAction.autoConnect, TickAction.reschedule]) ∧
    (env.ec.isSome = true ∨ env.stopping = true → on_timer env = []) := by
  constructor
  · intro h1 h2
    simp [on_timer, h1, h2]
  · intro h
    rcases h with h | h <;> simp [on_timer, h]

/-- Witness for C7: a clean tick runs the four actions in order; a
cancelled tick runs nothing. -/
theorem timer_tick_runs_maintenance_in_order_witness :
    on_timer ⟨none, false⟩ = [TickAction.oncePerSecond, TickAction.sendEndpoints,
      TickAction.autoConnect, TickAction.reschedule] ∧
    on_timer ⟨some 0, false⟩ = [] ∧ on_timer ⟨none, true⟩ = [] :=
  ⟨(timer_tick_runs_maintenance_in_order ⟨none, false⟩).1 rfl rfl,
    (timer_tick_runs_maintenance_in_order ⟨some 0, false⟩).2 (Or.inl rfl),
    (timer_tick_runs_maintenance_in_order ⟨none, true⟩).2 (Or.inr rfl)⟩

/-- C8: `connect`'s `assert(work_)` condition is exactly the presence of
the Work token — it fails precisely when `connect` is called after
shutdown has begun, and under the precondition that shutdown has not
begun the assertion branch is unreachable. -/
theorem connect_asserts_work_token (s : OverlayState) (slotResult : Option Nat)
    (newPeer : Nat → Peer) :
    (connect s slotResult newPeer).2 = s.work ∧
    (s.work = true → (connect s slotResult newPeer).2 = true) := by
  cases slotResult <;> simp [connect]

/-- Witness for C8: before shutdown the assertion passes on an outbound
connect that is granted slot 5. -/
theorem connect_asserts_work_token_witness :
    (connect initialOverlay (some 5) (fun slot => ⟨1, 0, slot⟩)).2 = true :=
  (connect_asserts_work_token initialOverlay (some 5) (fun slot => ⟨1, 0, slot⟩)).2 rfl

/-- C10: the legacy inbound path only ever touches the local-endpoint
lookup, the inbound-slot reservation and the add-and-run admission — no
accounting token, no `Connect-As` inspection, no handshake parsing,
shared-value derivation, verification or slot activation — and it admits
and runs a peer exactly when the local endpoint resolves and the slot is
granted, immediately after those two steps. -/
theorem legacy_admission_skips_checks (env : LegacyEnv) :
    CallEv.newInboundToken ∉ (onLegacyPeerHello env).2 ∧
    CallEv.checkConnectAs ∉ (onLegacyPeerHello env).2 ∧
    CallEv.parseHelloCall ∉ (onLegacyPeerHello env).2 ∧
    CallEv.makeSharedValueCall ∉ (onLegacyPeerHello env).2 ∧
    CallEv.verifyHelloCall ∉ (onLegacyPeerHello env).2 ∧
    CallEv.slotActivate ∉ (onLegacyPeerHello env).2 ∧
    ((onLegacyPeerHello env).1 = true ↔
      env.localEndpoint.isSome = true ∧ env.inboundSlot.isSome = true) ∧
    ((onLegacyPeerHello env).1 = true →
      (onLegacyPeerHello env).2 =
        [CallEv.queryLocalEndpoint, CallEv.newInboundSlot, CallEv.addAndRun]) := by
  cases hl : env.localEndpoint <;> cases hs : env.inboundSlot <;>
    simp [onLegacyPeerHello, hl, hs]

/-- Witness for C10: with local endpoint 7 resolved and slot 3 granted,
the legacy path admits and runs the peer right after reserving the
slot. -/
theorem legacy_admission_skips_checks_witness :
    (onLegacyPeerHello ⟨some 7, some 3⟩).1 = true ∧
    (onLegacyPeerHello ⟨some 7, some 3⟩).2 =
      [CallEv.queryLocalEndpoint, CallEv.newInboundSlot, CallEv.addAndRun] := by
  have h := legacy_admission_skips_checks ⟨some 7, some 3⟩
  have h1 : (onLegacyPeerHello ⟨some 7, some 3⟩).1 = true :=
    h.2.2.2.2.2.2.1.mpr ⟨rfl, rfl⟩
  exact ⟨h1, h.2.2.2.2.2.2.2 h1⟩

lemma onHandoff_shape (env : HandoffEnv) (request : HttpMessage) :
    (onHandoff env request).1 = defaultHandoff ∨
    (onHandoff env request).1 = { moved := true, response := none, keepAlive := false } ∨
    (onHandoff env request).1 = { moved := false, response := none, keepAlive := false } ∨
    ∃ slot, env.inboundSlot = some slot ∧
      (onHandoff env request).1 =
        { moved := false
          response := some (makeRedirectResponse env slot request)
          keepAlive := request.keepAlive } := by
  cases hup : isPeerUpgrade request
  · exact Or.inl (by simp [onHandoff, hup])
  rcases hl : env.localEndpoint with _ | lcl
  · exact Or.inr (Or.inl (by simp [onHandoff, hup, hl]))
  cases hcons : env.consumerDisconnect
  case true => exact Or.inr (Or.inl (by simp [onHandoff, hup, hl, hcons]))
  rcases hs : env.inboundSlot with _ | slot
  · exact Or.inr (Or.inr (Or.inl (by simp [onHandoff, hup, hl, hcons, hs])))
  cases hpt : containsPeerToken request.connectAs
  case false =>
    exact Or.inr (Or.inr (Or.inr
      ⟨slot, rfl, by simp [onHandoff, hup, hl, hcons, hs, hpt]⟩))
  rcases hh : env.parsedHello with _ | hello
  · exact Or.inr (Or.inl (by simp [onHandoff, hup, hl, hcons, hs, hpt, hh]))
  rcases hsv : env.sharedValue with _ | sv
  · exact Or.inr (Or.inl (by simp [onHandoff, hup, hl, hcons, hs, hpt, hh, hsv]))
  rcases hvk : env.verifiedKey with _ | vk
  · exact Or.inr (Or.inl (by simp [onHandoff, hup, hl, hcons, hs, hpt, hh, hsv, hvk]))
  by_cases har : env.activateResult = PFResult.success
  · exact Or.inr (Or.inl
      (by simp [onHandoff, hup, hl, hcons, hs, hpt, hh, hsv, hvk, har]))
  · exact Or.inr (Or.inr (Or.inr
      ⟨slot, rfl, by simp [onHandoff, hup, hl, hcons, hs, hpt, hh, hsv, hvk, har]⟩))

/-- C9 (amended): a response is present only when `moved` is false, and
any response is one of the two redirect responses for the reserved slot;
aborts after the upgrade check other than the null-inbound-slot denial
report `moved = true` with no response, while the null-slot denial
reports `moved = false` with no response. -/
theorem handoff_response_only_when_not_moved (env : HandoffEnv) (request : HttpMessage) :
    (∀ r, (onHandoff env request).1.response = some r →
      (onHandoff env request).1.moved = false ∧
      ∃ slot, env.inboundSlot = some slot ∧
        r = makeRedirectResponse env slot request) ∧
    (∀ lcl, isPeerUpgrade request = true → env.localEndpoint = some lcl →
      env.consumerDisconnect = false → env.inboundSlot = none →
      (onHandoff env request).1.moved = false ∧
        (onHandoff env request).1.response = none) ∧
    (isPeerUpgrade request = true →
      env.localEndpoint = none ∨ env.consumerDisconnect = true →
      (onHandoff env request).1.moved = true ∧
        (onHandoff env request).1.response = none) ∧
    (∀ lcl slot, isPeerUpgrade request = true → env.localEndpoint = some lcl →
      env.consumerDisconnect = false → env.inboundSlot = some slot →
      containsPeerToken request.connectAs = true →
      env.parsedHello = none ∨ env.sharedValue = none ∨ env.verifiedKey = none →
      (onHandoff env request).1.moved = true ∧
        (onHandoff env request).1.response = none) := by
  refine ⟨?_, ?_, ?_, ?_⟩
  · intro r hr
    rcases onHandoff_shape env request with h | h | h | ⟨slot, hslot, h⟩ <;>
      rw [h] at hr ⊢
    · simp [defaultHandoff] at hr
    · simp at hr
    · simp at hr
    · simp only [Option.some.injEq] at hr
      exact ⟨rfl, slot, hslot, hr.symm⟩
  · intro lcl hup hl hcons hs
    constructor <;> simp [onHandoff, hup, hl, hcons, hs]
  · intro hup h
    rcases h with h | h
    · constructor <;> simp [onHandoff, hup, h]
    · rcases hl2 : env.localEndpoint with _ | lcl <;>
        constructor <;> simp [onHandoff, hup, h, hl2]
  · intro lcl slot hup hl hcons hs hpt hfail
    rcases hfail with h | h | h
    · constructor <;> simp [onHandoff, hup, hl, hcons, hs, hpt, h]
    · rcases hh : env.parsedHello with _ | hello <;>
        constructor <;> simp [onHandoff, hup, hl, hcons, hs, hpt, hh, h]
    · rcases hh : env.parsedHello with _ | hello <;>
        rcases hsv : env.sharedValue with _ | sv <;>
        constructor <;> simp [onHandoff, hup, hl, hcons, hs, hpt, hh, hsv, h]

/-- Witness for C9 (amended): in the sample environment the `rpc`
request's response entails `moved = false` and is exactly the redirect
for slot 3. -/
theorem handoff_response_only_when_not_moved_witness :
    (onHandoff sampleEnv rpcRequest).1.moved = false ∧
    ∃ slot, sampleEnv.inboundSlot = some slot ∧
      makeRedirectResponse sampleEnv 3 rpcRequest
        = makeRedirectResponse sampleEnv slot rpcRequest :=
  (handoff_response_only_when_not_moved sampleEnv rpcRequest).1
    (makeRedirectResponse sampleEnv 3 rpcRequest) rfl

/-- Counterexample to C9 as stated: with a well-formed peer-upgrade
request and a denied inbound slot, `onHandoff` aborts after the upgrade
check (the trace shows it got past it, and no admission ran) with no
response, yet reports `moved = false`, not `moved = true`. -/
theorem handoff_null_slot_abort_not_moved :
    isPeerUpgrade peerRequest = true ∧
    (onHandoff nullSlotEnv peerRequest).2 =
      [CallEv.queryLocalEndpoint, CallEv.newInboundToken, CallEv.newInboundSlot] ∧
    (onHandoff nullSlotEnv peerRequest).1.response = none ∧
    (onHandoff nullSlotEnv peerRequest).1.moved = false := by
  refine ⟨rfl, ?_, rfl, rfl⟩
  rfl

end Overlay
